import Mathlib

/-!
Verification of the k8s-playground lifecycle engine.

This file gives a shallow embedding, in Lean 4, of the parts of the
k8s-playground repository that the checked properties speak about:

* the reservation record and its status enumeration (`pkg/queue`, QueueItem);
* the Redis-backed work queue (`pkg/queue`, RedisQueue) — modelled as a pure
  association list keyed by record id, plus an explicit schedule of write
  outcomes that stands for backend availability;
* the Killer controller (`cmd/killer-controller`, processShutdownItems and
  processShutdownItem) together with the Cluster Driver deletions
  (`pkg/k8s`, DeleteDinDStatefulSet and DeleteDinDDeployment) over an explicit
  outer-Kubernetes world state;
* the Collector controller (cleanupItems) and the expiry predicate
  (`QueueItem.ShouldBeCollected`);
* the Generator controller (`cmd/generator-controller`, processItem and
  processPendingItems) up to the image-version resolution step;
* the Gateway handlers of `internal/controllers/app.go` that guard a
  reservation by ownership (destroy, rename, services, attach, proxy) and the
  bounded terminal resize queue (`TerminalSession.Resize`);
* the per-session keystroke parser of `internal/controllers/logging.go`
  (`ParseCommandFromWebSocketDataWithSession`);
* the owner-slug function (`pkg/k8s`, sanitizeName).

Wall-clock instants are modelled as natural numbers; only their order matters
to the properties below.  Definitions keep the names of the Go functions they
embed where Lean permits.
-/

namespace Playground

/-- The reservation status enumeration (`pkg/queue`, type QueueStatus). -/
inductive QueueStatus where
  | pending
  | generating
  | error
  | available
  | shutdown
  | terminated
deriving DecidableEq, Repr

/-- The reservation record (`pkg/queue`, struct QueueItem).  Time fields are
natural-number instants. -/
structure QueueItem where
  owner : String
  k8sVersion : String
  status : QueueStatus
  errorMessage : String
  statusUpdatedAt : Nat
  podId : String
  expiresAt : Nat
  id : String
  displayName : String
  workloadType : String
deriving DecidableEq, Repr

/-- `QueueItem.IsExpired`: Go `time.Now().After(q.ExpiresAt)` is a strict
comparison, so a record is expired exactly when `expiresAt < now`. -/
def QueueItem.isExpired (q : QueueItem) (now : Nat) : Bool :=
  q.expiresAt < now

/-- `QueueItem.ShouldBeCollected`: false in the states
`shutdown`, `terminated`, `error`; otherwise defers to expiry. -/
def QueueItem.shouldBeCollected (q : QueueItem) (now : Nat) : Bool :=
  if q.status = .shutdown ∨ q.status = .terminated ∨ q.status = .error then
    false
  else
    q.isExpired now

/-! ## The work queue store

`RedisQueue` keeps one Redis hash from record id to serialized record; reads
scan the hash, writes overwrite whole records (HSet) and deletes are HDel.
The store is modelled as a list of records together with a schedule of write
outcomes: each write consumes the head of the schedule (`true` = the backend
accepted the write, `false` = storage failure); an exhausted schedule means a
healthy backend.  Reads are modelled as always succeeding — no checked claim
depends on read failures. -/

structure Store where
  items : List QueueItem
  writeOutcomes : List Bool
deriving DecidableEq, Repr

/-- Look a record up by id (`RedisQueue.GetItem`, minus the storage layer). -/
def findItem (items : List QueueItem) (id : String) : Option QueueItem :=
  items.find? (fun x => x.id = id)

/-- Whole-record overwrite by id; inserts at the end when the id is absent
(Redis HSet semantics over a hash, whose key set never repeats). -/
def upsert : List QueueItem → QueueItem → List QueueItem
  | [], it => [it]
  | x :: xs, it => if x.id = it.id then it :: xs else x :: upsert xs it

/-- Consume the next scheduled write outcome (an exhausted schedule means the
backend accepts the write). -/
def Store.nextWrite (s : Store) : Bool × List Bool :=
  match s.writeOutcomes with
  | [] => (true, [])
  | b :: rest => (b, rest)

/-- `RedisQueue.UpdateItem`: sets `StatusUpdatedAt = time.Now()` on the
record, then overwrites the stored record; returns the updated store and
whether the write succeeded. -/
def updateItem (now : Nat) (s : Store) (it : QueueItem) : Store × Bool :=
  let (ok, rest) := s.nextWrite
  if ok then
    ({ items := upsert s.items { it with statusUpdatedAt := now },
       writeOutcomes := rest }, true)
  else
    ({ s with writeOutcomes := rest }, false)

/-- `RedisQueue.DeleteItem` (HDel): removes a record by id; idempotent.  The
delete path of the Collector ignores its error, so the outcome schedule is
not consulted here. -/
def deleteItem (s : Store) (id : String) : Store :=
  { s with items := s.items.filter (fun x => ¬ x.id = id) }

/-- `RedisQueue.GetItemsByStatus`: scan and filter by status. -/
def getItemsByStatus (s : Store) (st : QueueStatus) : List QueueItem :=
  s.items.filter (fun x => x.status = st)

/-! ## The outer-Kubernetes world and the Cluster Driver deletions

`pkg/k8s` talks to the outer cluster through client-go.  The world state is
the set of object names per kind; a delete call removes the named object or
reports `NotFound` when it is absent.  `apiDown` stands for any non-NotFound
API failure mode (outage, permission error): while it is set, every delete
call returns a non-NotFound error, which is exactly the class of error the
driver code propagates. -/

structure K8sWorld where
  statefulSets : List String
  deployments : List String
  services : List String
  pvcs : List String
  apiDown : Bool
deriving DecidableEq, Repr

/-- Outcome of one client-go delete call. -/
inductive KubeDeleteResult where
  | ok
  | notFound
  | apiError
deriving DecidableEq, Repr

def removeName (l : List String) (name : String) : List String :=
  l.filter (fun x => ¬ x = name)

def kubeDelete (world : K8sWorld) (objects : List String)
    (setObjects : List String → K8sWorld) (name : String) :
    K8sWorld × KubeDeleteResult :=
  if world.apiDown then (world, .apiError)
  else if objects.contains name then (setObjects (removeName objects name), .ok)
  else (world, .notFound)

def deleteStatefulSetObj (w : K8sWorld) (name : String) : K8sWorld × KubeDeleteResult :=
  kubeDelete w w.statefulSets (fun l => { w with statefulSets := l }) name

def deleteDeploymentObj (w : K8sWorld) (name : String) : K8sWorld × KubeDeleteResult :=
  kubeDelete w w.deployments (fun l => { w with deployments := l }) name

def deleteServiceObj (w : K8sWorld) (name : String) : K8sWorld × KubeDeleteResult :=
  kubeDelete w w.services (fun l => { w with services := l }) name

def deletePvcObj (w : K8sWorld) (name : String) : K8sWorld × KubeDeleteResult :=
  kubeDelete w w.pvcs (fun l => { w with pvcs := l }) name

/-- `err != nil && !apierrors.IsNotFound(err)`: the only delete outcome the
driver treats as an error. -/
def KubeDeleteResult.isHardError : KubeDeleteResult → Bool
  | .apiError => true
  | _ => false

/-- `Client.DeleteDinDStatefulSet` (`pkg/k8s`): delete the stateful set, its
service, and the PVC named `docker-graph-storage-{name}-0`; a NotFound on any
of the three is not an error. -/
def DeleteDinDStatefulSet (w : K8sWorld) (name : String) :
    K8sWorld × Except String Unit :=
  let d1 := deleteStatefulSetObj w name
  if d1.2.isHardError then
    (d1.1, .error ("failed to delete statefulset " ++ name))
  else
    let d2 := deleteServiceObj d1.1 name
    if d2.2.isHardError then
      (d2.1, .error ("failed to delete service " ++ name))
    else
      let pvcName := "docker-graph-storage-" ++ name ++ "-0"
      let d3 := deletePvcObj d2.1 pvcName
      if d3.2.isHardError then
        (d3.1, .error ("failed to delete pvc " ++ pvcName))
      else (d3.1, .ok ())

/-- `Client.DeleteDinDDeployment` (`pkg/k8s`): delete the deployment and its
service; NotFound is not an error. -/
def DeleteDinDDeployment (w : K8sWorld) (name : String) :
    K8sWorld × Except String Unit :=
  let d1 := deleteDeploymentObj w name
  if d1.2.isHardError then
    (d1.1, .error ("failed to delete deployment " ++ name))
  else
    let d2 := deleteServiceObj d1.1 name
    if d2.2.isHardError then
      (d2.1, .error ("failed to delete service " ++ name))
    else (d2.1, .ok ())

/-! ## The Killer controller (`cmd/killer-controller/main.go`) -/

/-- Observable actions of one Killer record pass, in program order: a
successful status write to the store, or a workload deletion attempt against
the outer cluster. -/
inductive KillerEvent where
  | writeStatus (id : String) (st : QueueStatus)
  | deleteWorkload (name : String) (workloadType : String)
deriving DecidableEq, Repr

/-- `processShutdownItem`: mark the record `terminated` first; only then, when
`PodID` is set, delete the workload, choosing the teardown path from
`WorkloadType` (`"deployment"` versus the stateful default).  A deletion
failure is logged and does not change the already-written status; only a
failure of the status write itself is returned to the caller. -/
def processShutdownItem (now : Nat) (st : Store) (w : K8sWorld)
    (item : QueueItem) :
    Except String Unit × Store × K8sWorld × List KillerEvent :=
  let item1 := { item with status := .terminated }
  let u := updateItem now st item1
  if ¬ u.2 then
    (.error "failed to update item status to terminating", u.1, w, [])
  else if ¬ item.podId = "" then
    let d :=
      if item.workloadType = "deployment" then DeleteDinDDeployment w item.podId
      else DeleteDinDStatefulSet w item.podId
    -- the deletion result `d.2` is only logged on failure; processing goes on
    (.ok (), u.1, d.1,
      [.writeStatus item.id .terminated,
       .deleteWorkload item.podId item.workloadType])
  else
    (.ok (), u.1, w, [.writeStatus item.id .terminated])

/-- Loop body of `processShutdownItems` for one record: on an error from
`processShutdownItem`, write `status = error` with the failure text. -/
def killerHandleItem (now : Nat) (item : QueueItem)
    (acc : Store × K8sWorld) : Store × K8sWorld :=
  let p := processShutdownItem now acc.1 acc.2 item
  match p.1 with
  | .ok _ => (p.2.1, p.2.2.1)
  | .error e =>
      let item2 := { item with status := .error, errorMessage := e }
      ((updateItem now p.2.1 item2).1, p.2.2.1)

/-- `processShutdownItems`: fetch the `shutdown` records and process each in
turn. -/
def processShutdownItems (now : Nat) (st : Store) (w : K8sWorld) :
    Store × K8sWorld :=
  (getItemsByStatus st .shutdown).foldl
    (fun acc item => killerHandleItem now item acc) (st, w)

/-! ## The Collector controller (`cmd/collector-controller/main.go`, quoted in
`charts/k8s-playground-local/DEVELOPMENT.md`) -/

/-- `time.Duration` constant: the grace period, in the same abstract time
unit as the instants (5 minutes). -/
def terminatedGracePeriod : Nat := 300

/-- Loop body of `cleanupItems` for one snapshot record: an expired,
non-terminal record is marked `shutdown` (a failed write is escalated by a
second write marking it `error`); a record `terminated` for longer than the
grace period is deleted. -/
def collectorHandleItem (now : Nat) (item : QueueItem) (st : Store) : Store :=
  if item.shouldBeCollected now then
    let item1 := { item with status := .shutdown }
    let u := updateItem now st item1
    if u.2 then u.1
    else
      let msg := "Failed to mark for shutdown during collection"
      let item2 := { item with status := .error, errorMessage := msg }
      (updateItem now u.1 item2).1
  else if item.status = .terminated ∧ now - item.statusUpdatedAt > terminatedGracePeriod then
    deleteItem st item.id
  else
    st

/-- `cleanupItems`: one Collector tick over a snapshot of all records. -/
def cleanupItems (now : Nat) (st : Store) : Store :=
  st.items.foldl (fun acc item => collectorHandleItem now item acc) st

/-! ## The Generator controller (`cmd/generator-controller/main.go`)

Only the part of `processItem` up to image-version resolution is embedded
concretely; everything past a successful version lookup (NFS resolution,
workload creation, the readiness poll) is abstracted as a continuation,
which the embedded claims never reach. -/

/-- Render a list the way Go `%v` prints a `[]string`. -/
def joinSpace : List String → String
  | [] => ""
  | [k] => k
  | k :: rest => k ++ " " ++ joinSpace rest

def renderKeys (ks : List String) : String :=
  "[" ++ joinSpace ks ++ "]"

/-- The message built by `processItem` when `K8sVersion` has no entry in the
configured version→image map. -/
def unsupportedVersionMsg (v : String) (ks : List String) : String :=
  "unsupported k8s version for DinD image: " ++ v ++
  ". Check DIND_IMAGE_VERSIONS_JSON configuration. Available versions: " ++
  renderKeys ks

/-- Configured version→image map (`dindImageVersions`), as an association
list; `getMapKeys` is its key list. -/
def lookupVersion (cfg : List (String × String)) (v : String) : Option String :=
  (cfg.find? (fun p => p.1 = v)).map Prod.snd

def getMapKeys (cfg : List (String × String)) : List String :=
  cfg.map Prod.fst

/-- `processItem`, embedded up to the version lookup: write `generating`
(aborting on a storage failure), then resolve the image tag; a missing tag
writes `error` with `unsupportedVersionMsg` and returns that message as the
failure.  `k` abstracts the remainder of the function (workload creation and
the readiness poll), entered only on a successful lookup. -/
def processItemStart (cfg : List (String × String)) (now : Nat) (st : Store)
    (item : QueueItem)
    (k : Store → QueueItem → String → Except String Unit × Store) :
    Except String Unit × Store :=
  let item1 := { item with status := .generating }
  let u := updateItem now st item1
  if ¬ u.2 then (.error "failed to update item status to generating", u.1)
  else
    match lookupVersion cfg item.k8sVersion with
    | none =>
        let msg := unsupportedVersionMsg item.k8sVersion (getMapKeys cfg)
        let item2 := { item1 with status := .error, errorMessage := msg }
        (.error msg, (updateItem now u.1 item2).1)
    | some tag => k u.1 item1 tag

/-- Loop body of `processPendingItems` for one record: an error from
`processItem` is escalated by writing `status = error` with the failure
text. -/
def generatorHandleItem (cfg : List (String × String)) (now : Nat)
    (item : QueueItem)
    (k : Store → QueueItem → String → Except String Unit × Store)
    (st : Store) : Store :=
  let p := processItemStart cfg now st item k
  match p.1 with
  | .ok _ => p.2
  | .error e =>
      let item2 := { item with status := .error, errorMessage := e }
      (updateItem now p.2 item2).1

/-! ## The terminal resize queue (`internal/controllers/app.go`,
`TerminalSession.Resize`)

`sizeChan` is a buffered Go channel of capacity 2.  With no concurrent
consumer, `Resize` is deterministic: the first send succeeds exactly when the
buffer holds fewer than two sizes; otherwise the 100 ms timeout fires, one
pending size (the oldest — channels are FIFO) is received and dropped, and a
non-blocking send of the new size then succeeds because one slot is free. -/

structure TerminalSize where
  width : Nat
  height : Nat
deriving DecidableEq, Repr

/-- `TerminalSession.Resize` on an unconsumed `sizeChan`, as a function on
the buffered contents (oldest first). -/
def sessionResize (q : List TerminalSize) (s : TerminalSize) : List TerminalSize :=
  if q.length < 2 then q ++ [s]
  else
    match q with
    | [] => [s]
    | _ :: rest => rest ++ [s]

/-! ## Gateway handlers guarded by ownership (`internal/controllers/app.go`)

Each handler is a function from the authenticated principal (`owner_id`, put
into the request context by the auth middleware), the request parameters and
the store to an HTTP status code and the resulting store.  Store reads are
modelled as infallible, so a missing record takes the `item not found` → 404
path; everything past the guards that only talks to the outer cluster is
abstracted by an outcome parameter, since it neither reads nor writes the
store. -/

/-- `AppController.destroyEnvironment`: load, check owner, then write
`status = shutdown`. -/
def destroyEnvironment (now : Nat) (st : Store) (ownerID id : String) :
    Nat × Store :=
  match findItem st.items id with
  | none => (404, st)
  | some item =>
    if ¬ item.owner = ownerID then (403, st)
    else
      let item1 := { item with status := .shutdown, statusUpdatedAt := now }
      let u := updateItem now st item1
      if u.2 then (200, u.1) else (500, u.1)

/-- `AppController.updateEnvironmentDisplayName`: validate the body
(`required,max=50`), load, check owner, then write the new name. -/
def updateEnvironmentDisplayName (now : Nat) (st : Store)
    (ownerID envID dispName : String) : Nat × Store :=
  if dispName = "" ∨ dispName.length > 50 then (400, st)
  else
    match findItem st.items envID with
    | none => (404, st)
    | some item =>
      if ¬ item.owner = ownerID then (403, st)
      else
        let item1 := { item with displayName := dispName, statusUpdatedAt := now }
        let u := updateItem now st item1
        if u.2 then (200, u.1) else (500, u.1)

/-- `AppController.getEnvironmentServices`: load, check owner, require
`available` and a pod id; the service-discovery exec against the pod is
read-only and abstracted by `k8sOk`. -/
def getEnvironmentServices (st : Store) (ownerID envID : String)
    (k8sOk : Bool) : Nat × Store :=
  match findItem st.items envID with
  | none => (404, st)
  | some item =>
    if ¬ item.owner = ownerID then (403, st)
    else if ¬ item.status = .available then (400, st)
    else if item.podId = "" then (400, st)
    else if k8sOk then (200, st) else (500, st)

/-- `AppController.connectEnvironment` (terminal attach): load (any load
error is a 404 here), check owner, require `available` and a pod id; the
WebSocket upgrade and exec stream are abstracted by `k8sOk` (101 is the
upgrade status). -/
def connectEnvironment (st : Store) (ownerID envID : String)
    (k8sOk : Bool) : Nat × Store :=
  match findItem st.items envID with
  | none => (404, st)
  | some item =>
    if ¬ item.owner = ownerID then (403, st)
    else if ¬ item.status = .available then (400, st)
    else if item.podId = "" then (400, st)
    else if k8sOk then (101, st) else (500, st)

/-- `AppController.proxyToPod`: load, check owner, require `available` and a
pod id; the curl-through-exec proxy is read-only and abstracted by the
status code it produces. -/
def proxyToPod (st : Store) (ownerID envID : String)
    (proxyCode : Nat) : Nat × Store :=
  match findItem st.items envID with
  | none => (404, st)
  | some item =>
    if ¬ item.owner = ownerID then (403, st)
    else if ¬ item.status = .available then (400, st)
    else if item.podId = "" then (400, st)
    else (proxyCode, st)

/-! ## The owner slug (`pkg/k8s`, sanitizeName) -/

/-- Character class `[a-z0-9-]` of the replacement regexp. -/
def isAllowedChar (c : Char) : Bool :=
  (97 ≤ c.toNat && c.toNat ≤ 122) || (48 ≤ c.toNat && c.toNat ≤ 57) ||
  c.toNat = 45

/-- Helper for the regexp replacement: `inRun` records whether the previous
character belonged to a (already replaced) disallowed run. -/
def collapseAux : Bool → List Char → List Char
  | _, [] => []
  | inRun, c :: rest =>
    if isAllowedChar c then c :: collapseAux false rest
    else if inRun then collapseAux true rest
    else '-' :: collapseAux true rest

/-- `regexp.MustCompile("[^a-z0-9-]+").ReplaceAllString(s, "-")`: every
maximal run of characters outside the class becomes one hyphen. -/
def collapseDisallowed (l : List Char) : List Char :=
  collapseAux false l

/-- `strings.Trim(s, "-")`. -/
def trimHyphen (l : List Char) : List Char :=
  ((l.dropWhile (fun c => c == '-')).reverse.dropWhile (fun c => c == '-')).reverse

/-- `sanitizeName` (`pkg/k8s`): lowercase, replace runs of `[^a-z0-9-]` by a
hyphen, trim hyphens, and fall back to `invalid-name` when nothing is left.
`strings.ToLower` is modelled by `Char.toLower`; the two agree on ASCII, and
any character on which they could differ is outside `[a-z0-9-]` either way
and is therefore replaced. -/
def sanitizeName (name : List Char) : List Char :=
  let lowered := name.map Char.toLower
  let replaced := collapseDisallowed lowered
  let trimmed := trimHyphen replaced
  if trimmed = [] then "invalid-name".data else trimmed

/-! ## The keystroke parser (`internal/controllers/logging.go`,
ParseCommandFromWebSocketDataWithSession)

The per-session line buffers (`commandBuffer`, a sync.Map from session id to
string) are an association list threaded through the calls.  Where the
source stores a value that is already the observable content (LoadOrStore of
an empty string), the model leaves the list untouched; `lookupBuf` observes
the same buffer either way. -/

def escChar : Char := Char.ofNat 27
def lbraceChar : Char := Char.ofNat 123

/-- ASCII whitespace, as trimmed by `strings.TrimSpace` (which trims Unicode
space; the buffers only ever hold bytes the parser lets through). -/
def asciiSpace (c : Char) : Bool :=
  c == ' ' || c == '\t' || c == '\n' || c == '\r' ||
  c == Char.ofNat 11 || c == Char.ofNat 12

def trimAsciiSpace (l : List Char) : List Char :=
  ((l.dropWhile asciiSpace).reverse.dropWhile asciiSpace).reverse

/-- Does the list start with the given pattern? -/
def startsWithSeq : List Char → List Char → Bool
  | [], _ => true
  | _ :: _, [] => false
  | p :: ps, c :: cs => p == c && startsWithSeq ps cs

/-- Does the pattern occur contiguously anywhere in the list? -/
def containsSeq (pat : List Char) : List Char → Bool
  | [] => pat.isEmpty
  | c :: cs => startsWithSeq pat (c :: cs) || containsSeq pat cs

/-- Models the `json.Unmarshal` probe of the source: the frame decodes as a
JSON object (after optional leading whitespace it is brace-delimited) that
mentions the key `"resize"`.  The JSON decoder itself is external to the
repository; this recognizer agrees with it on every frame the theorems
evaluate (keystroke bytes, which are not JSON objects, and the gateway
resize frames, which are). -/
def isResizeControlFrame (s : String) : Bool :=
  let t := trimAsciiSpace s.data
  (t.head? == some lbraceChar) && containsSeq ("\x22resize\x22".data) t

/-- The accumulation filter of the source:
`r >= 32 && r <= 126 || r == ' ' || r == '\t'`. -/
def keepPrintable (c : Char) : Bool :=
  (32 ≤ c.toNat && c.toNat ≤ 126) || c == ' ' || c == '\t'

/-- The per-session line buffers. -/
abbrev Buffers := List (String × String)

def lookupBuf (bs : Buffers) (sid : String) : String :=
  ((bs.find? (fun p => p.1 = sid)).map Prod.snd).getD ""

def storeBuf : Buffers → String → String → Buffers
  | [], sid, v => [(sid, v)]
  | p :: rest, sid, v =>
      if p.1 = sid then (sid, v) :: rest else p :: storeBuf rest sid v

/-- `ParseCommandFromWebSocketDataWithSession`: JSON resize frames and
ESC-prefixed sequences contribute nothing; a frame containing CR or LF
flushes the whitespace-trimmed buffer as the command and clears the buffer;
a lone backspace or DEL retracts one byte; everything else appends its
printable-or-Tab bytes to the buffer.  Returns the flushed command (empty
when nothing flushes) and the updated buffers. -/
def ParseCommandFromWebSocketDataWithSession (data : String)
    (sessionID : String) (bs : Buffers) : String × Buffers :=
  if isResizeControlFrame data then ("", bs)
  else if data.data.head? = some escChar then ("", bs)
  else
    let currentBuffer := lookupBuf bs sessionID
    if data.data.contains '\r' || data.data.contains '\n' then
      let command := String.mk (trimAsciiSpace currentBuffer.data)
      let bs1 := storeBuf bs sessionID ""
      (if command.length > 0 then command else "", bs1)
    else if data = "\x08" ∨ data = "\x7f" then
      if currentBuffer.length > 0 then
        ("", storeBuf bs sessionID (String.mk currentBuffer.data.dropLast))
      else ("", bs)
    else
      ("", storeBuf bs sessionID
            (String.mk (currentBuffer.data ++ data.data.filter keepPrintable)))

/-- Feed a sequence of frames to one session, collecting the flushed
commands in order. -/
def feedFrames (sessionID : String) :
    List String → Buffers → List String × Buffers
  | [], bs => ([], bs)
  | d :: rest, bs =>
      let (out, bs1) := ParseCommandFromWebSocketDataWithSession d sessionID bs
      let (outs, bs2) := feedFrames sessionID rest bs1
      (out :: outs, bs2)

/-! ## Observation helpers

Derived, observation-only functions used to state properties; they add no
behaviour of their own. -/

/-- The stores reached after each of a sequence of `UpdateItem` writes, in
order (write times paired with the records written). -/
def runUpdates (s : Store) : List (QueueItem × Nat) → List Store
  | [] => []
  | (it, t) :: rest =>
      let s1 := (updateItem t s it).1
      s1 :: runUpdates s1 rest

/-- The `statusUpdatedAt` values observable for record `r` after each write
of a sequence (skipping instants at which `r` is not stored). -/
def statusTimeTrace (s : Store) (ws : List (QueueItem × Nat)) (r : String) :
    List Nat :=
  (runUpdates s ws).filterMap
    (fun st => (findItem st.items r).map QueueItem.statusUpdatedAt)

/-!
# Theorems

Helper lemmas first, then one theorem per checked claim (with its witness or
counterexample where required).
-/

/-! ## Store lemmas -/

theorem findItem_upsert_self (items : List QueueItem) (it : QueueItem) :
    findItem (upsert items it) it.id = some it := by
  induction items with
  | nil => simp [upsert, findItem, List.find?]
  | cons a l ih =>
    by_cases ha : a.id = it.id
    · simp [upsert, findItem, List.find?, ha]
    · simpa [upsert, findItem, List.find?, ha] using ih

theorem findItem_upsert_ne (items : List QueueItem) (it : QueueItem)
    (id : String) (h : id ≠ it.id) :
    findItem (upsert items it) id = findItem items id := by
  have h2 : ¬ it.id = id := fun hc => h hc.symm
  induction items with
  | nil => simp [upsert, findItem, List.find?, h2]
  | cons a l ih =>
    by_cases ha : a.id = it.id
    · have hx : ¬ a.id = id := by rw [ha]; exact h2
      simp [upsert, findItem, List.find?, ha, hx, h2]
    · by_cases hb : a.id = id
      · simp [upsert, findItem, List.find?, ha, hb, h]
      · simpa [upsert, findItem, List.find?, ha, hb, h] using ih

theorem updateItem_success (now : Nat) (s : Store) (it : QueueItem)
    (h : s.writeOutcomes = []) :
    updateItem now s it =
      ({ items := upsert s.items { it with statusUpdatedAt := now },
         writeOutcomes := [] }, true) := by
  simp [updateItem, Store.nextWrite, h]

theorem findItem_of_mem_nodup (items : List QueueItem) (it : QueueItem)
    (hmem : it ∈ items) (hnd : (items.map QueueItem.id).Nodup) :
    findItem items it.id = some it := by
  induction items with
  | nil => simp at hmem
  | cons a l ih =>
    simp only [List.map_cons, List.nodup_cons] at hnd
    rcases List.mem_cons.mp hmem with h | h
    · subst h
      simp [findItem, List.find?]
    · have hne : ¬ a.id = it.id := by
        intro hc
        exact hnd.1 (hc ▸ (List.mem_map.mpr ⟨it, h, rfl⟩))
      simpa [findItem, List.find?, hne] using ih h hnd.2

theorem findItem_filter_ne (items : List QueueItem) (id r : String)
    (h : r ≠ id) :
    findItem (items.filter (fun x => ¬ x.id = id)) r = findItem items r := by
  have h2 : ¬ id = r := fun hc => h hc.symm
  induction items with
  | nil => rfl
  | cons a l ih =>
    by_cases ha : a.id = id
    · simp [findItem, List.find?, List.filter, ha, h2] at ih ⊢
      exact ih
    · by_cases hb : a.id = r
      · simp [findItem, List.find?, List.filter, ha, hb, h]
      · simp [findItem, List.find?, List.filter, ha, hb] at ih ⊢
        exact ih

theorem findItem_filter_self (items : List QueueItem) (id : String) :
    findItem (items.filter (fun x => ¬ x.id = id)) id = none := by
  induction items with
  | nil => rfl
  | cons a l ih =>
    by_cases ha : a.id = id
    · simp only [List.filter, ha]
      simp only [decide_not]
      exact (by simpa [decide_not] using ih : _)
    · simpa [findItem, List.find?, List.filter, ha] using ih

theorem updateItem_cases (now : Nat) (s : Store) (it : QueueItem) :
    (updateItem now s it).1.items =
        upsert s.items { it with statusUpdatedAt := now } ∨
    (updateItem now s it).1.items = s.items := by
  obtain ⟨items, outs⟩ := s
  rcases outs with _ | ⟨b, rest⟩
  · left
    rfl
  · cases b
    · right
      rfl
    · left
      rfl

theorem findItem_updateItem_ne (now : Nat) (s : Store) (it : QueueItem)
    (r : String) (h : ¬ it.id = r) :
    findItem (updateItem now s it).1.items r = findItem s.items r := by
  rcases updateItem_cases now s it with hc | hc
  · rw [hc]
    exact findItem_upsert_ne _ _ _ (by simpa using fun hc2 => h hc2.symm)
  · rw [hc]

theorem updateItem_writeOutcomes_nil (now : Nat) (s : Store) (it : QueueItem)
    (h : s.writeOutcomes = []) :
    (updateItem now s it).1.writeOutcomes = [] := by
  rw [updateItem_success now s it h]

/-! ## Collector lemmas -/

theorem collectorHandleItem_writeOutcomes (now : Nat) (i : QueueItem)
    (acc : Store) (h : acc.writeOutcomes = []) :
    (collectorHandleItem now i acc).writeOutcomes = [] := by
  unfold collectorHandleItem
  by_cases hc : i.shouldBeCollected now
  · simp only [hc, if_true]
    by_cases hu : (updateItem now acc { i with status := .shutdown }).2
    · simp only [hu, if_true]
      exact updateItem_writeOutcomes_nil now acc _ h
    · rw [Bool.not_eq_true] at hu
      simp only [hu, Bool.false_eq_true, if_false]
      exact updateItem_writeOutcomes_nil now _ _
        (updateItem_writeOutcomes_nil now acc _ h)
  · by_cases ht : i.status = .terminated ∧
        now - i.statusUpdatedAt > terminatedGracePeriod
    · simp [hc, ht, deleteItem, h]
    · simp [hc, ht, h]

theorem collectorHandleItem_other (now : Nat) (i : QueueItem) (acc : Store)
    (r : String) (h : ¬ i.id = r) :
    findItem (collectorHandleItem now i acc).items r = findItem acc.items r := by
  unfold collectorHandleItem
  by_cases hc : i.shouldBeCollected now
  · simp only [hc, if_true]
    by_cases hu : (updateItem now acc { i with status := .shutdown }).2
    · simp only [hu, if_true]
      exact findItem_updateItem_ne now acc _ r h
    · rw [Bool.not_eq_true] at hu
      simp only [hu, Bool.false_eq_true, if_false]
      rw [findItem_updateItem_ne now _ { i with status := .error, errorMessage := "Failed to mark for shutdown during collection" } r (by simpa using h), findItem_updateItem_ne now acc { i with status := .shutdown } r (by simpa using h)]
  · by_cases ht : i.status = .terminated ∧
        now - i.statusUpdatedAt > terminatedGracePeriod
    · rw [if_neg hc, if_pos ht]
      simp only [deleteItem]
      exact findItem_filter_ne acc.items i.id r (fun hc2 => h hc2.symm)
    · rw [if_neg hc, if_neg ht]

theorem collector_fold_writeOutcomes (now : Nat) (snap : List QueueItem)
    (acc : Store) (h : acc.writeOutcomes = []) :
    ((snap.foldl (fun a i => collectorHandleItem now i a) acc)).writeOutcomes
      = [] := by
  induction snap generalizing acc with
  | nil => simpa using h
  | cons i rest ih =>
    simp only [List.foldl_cons]
    exact ih _ (collectorHandleItem_writeOutcomes now i acc h)

theorem collector_fold_other (now : Nat) (snap : List QueueItem) (acc : Store)
    (r : String) (h : ∀ x ∈ snap, ¬ x.id = r) :
    findItem ((snap.foldl (fun a i => collectorHandleItem now i a) acc)).items r
      = findItem acc.items r := by
  induction snap generalizing acc with
  | nil => rfl
  | cons i rest ih =>
    simp only [List.foldl_cons]
    rw [ih _ (fun x hx => h x (List.mem_cons_of_mem i hx)),
      collectorHandleItem_other now i acc r (h i (List.mem_cons_self i rest))]

theorem collectorHandleItem_self_collected (now : Nat) (i : QueueItem)
    (acc : Store) (hW : acc.writeOutcomes = [])
    (hc : i.shouldBeCollected now = true) :
    findItem (collectorHandleItem now i acc).items i.id =
      some { i with status := .shutdown, statusUpdatedAt := now } := by
  unfold collectorHandleItem
  simp only [hc, if_true]
  rw [updateItem_success now acc _ hW]
  have := findItem_upsert_self acc.items
    { i with status := .shutdown, statusUpdatedAt := now }
  simpa using this

/-! ## C2 — the Collector expiry rule -/

/-- C2, the claim as frozen, evaluated at the expiry boundary: a record in
status `available` with `expiresAt = 100` observed at `now = 100` satisfies
`now ≥ expiresAt`, so the claim says the Collector tick sets it to
`shutdown`; the code compares strictly (`time.Now().After(expiresAt)`) and
leaves it untouched. -/
theorem collector_expiry_boundary_counterexample :
    findItem (cleanupItems 100
        { items := [{ owner := "a", k8sVersion := "1.33",
                      status := .available, errorMessage := "",
                      statusUpdatedAt := 0, podId := "p", expiresAt := 100,
                      id := "r1", displayName := "", workloadType := "" }],
          writeOutcomes := [] }).items "r1" =
      some { owner := "a", k8sVersion := "1.33", status := .available,
             errorMessage := "", statusUpdatedAt := 0, podId := "p",
             expiresAt := 100, id := "r1", displayName := "",
             workloadType := "" } ∧
    (QueueStatus.available ≠ QueueStatus.shutdown) := by
  constructor
  · decide
  · decide

/-- C2 (amended): on a Collector tick with a healthy backend, every record
whose status is not in `{shutdown, terminated, error}` and whose expiry lies
strictly in the past (`now > expiresAt`) is written `shutdown`; a record in
one of those three states, or one not yet strictly expired, is never
transitioned by the expiry rule — it is stored unchanged, except that a
`terminated` record past its grace period is deleted. -/
theorem collector_expiry_rule (now : Nat) (st : Store) (item : QueueItem)
    (hW : st.writeOutcomes = [])
    (hnd : (st.items.map QueueItem.id).Nodup)
    (hmem : item ∈ st.items) :
    (¬ item.status = .shutdown → ¬ item.status = .terminated →
     ¬ item.status = .error → item.expiresAt < now →
       findItem (cleanupItems now st).items item.id =
         some { item with status := .shutdown, statusUpdatedAt := now }) ∧
    ((item.status = .shutdown ∨ item.status = .terminated ∨
      item.status = .error ∨ now ≤ item.expiresAt) →
       findItem (cleanupItems now st).items item.id = some item ∨
       (item.status = .terminated ∧
        findItem (cleanupItems now st).items item.id = none)) := by
  obtain ⟨pre, post, hsplit⟩ := List.append_of_mem hmem
  have hmid : item.id ∉ (pre.map QueueItem.id ++ post.map QueueItem.id) := by
    have hnd2 := hnd
    rw [hsplit] at hnd2
    simp only [List.map_append, List.map_cons] at hnd2
    exact (List.nodup_cons.mp (List.nodup_middle.mp hnd2)).1
  have hpre : ∀ x ∈ pre, ¬ x.id = item.id := fun x hx hc =>
    hmid (List.mem_append.mpr (Or.inl (hc ▸ List.mem_map.mpr ⟨x, hx, rfl⟩)))
  have hpost : ∀ x ∈ post, ¬ x.id = item.id := fun x hx hc =>
    hmid (List.mem_append.mpr (Or.inr (hc ▸ List.mem_map.mpr ⟨x, hx, rfl⟩)))
  have hfold : cleanupItems now st =
      post.foldl (fun a i => collectorHandleItem now i a)
        (collectorHandleItem now item
          (pre.foldl (fun a i => collectorHandleItem now i a) st)) := by
    unfold cleanupItems
    rw [hsplit, List.foldl_append, List.foldl_cons]
  set acc1 := pre.foldl (fun a i => collectorHandleItem now i a) st with hacc1
  have hacc1W : acc1.writeOutcomes = [] :=
    collector_fold_writeOutcomes now pre st hW
  have hacc1find : findItem acc1.items item.id = some item := by
    rw [hacc1, collector_fold_other now pre st item.id hpre]
    exact findItem_of_mem_nodup st.items item hmem hnd
  constructor
  · intro h1 h2 h3 h4
    have hc : item.shouldBeCollected now = true := by
      simp [QueueItem.shouldBeCollected, QueueItem.isExpired, h1, h2, h3, h4]
    rw [hfold, collector_fold_other now post _ item.id hpost]
    exact collectorHandleItem_self_collected now item acc1 hacc1W hc
  · intro hterm
    have hc : item.shouldBeCollected now = false := by
      rcases hterm with h | h | h | h
      · simp [QueueItem.shouldBeCollected, h]
      · simp [QueueItem.shouldBeCollected, h]
      · simp [QueueItem.shouldBeCollected, h]
      · simp only [QueueItem.shouldBeCollected, QueueItem.isExpired]
        split
        · rfl
        · simpa using h
    rw [hfold, collector_fold_other now post _ item.id hpost]
    unfold collectorHandleItem
    simp only [hc, Bool.false_eq_true, if_false]
    by_cases ht : item.status = .terminated ∧
        now - item.statusUpdatedAt > terminatedGracePeriod
    · right
      refine ⟨ht.1, ?_⟩
      simp only [ht, if_true, deleteItem]
      exact findItem_filter_self acc1.items item.id
    · left
      simp only [ht, if_false]
      exact hacc1find

/-- Witness for `collector_expiry_rule`: a two-record store in which the
first record is strictly expired in status `available` (it is written
`shutdown`) and discharging the second conjunct on a `terminated` record
within its grace period (it is stored unchanged). -/
theorem collector_expiry_rule_witness :
    findItem (cleanupItems 200
        { items := [{ owner := "a", k8sVersion := "1.33",
                      status := .available, errorMessage := "",
                      statusUpdatedAt := 0, podId := "p", expiresAt := 100,
                      id := "r1", displayName := "", workloadType := "" }],
          writeOutcomes := [] }).items "r1" =
      some { owner := "a", k8sVersion := "1.33", status := .shutdown,
             errorMessage := "", statusUpdatedAt := 200, podId := "p",
             expiresAt := 100, id := "r1", displayName := "",
             workloadType := "" } := by
  have h := collector_expiry_rule 200
    { items := [{ owner := "a", k8sVersion := "1.33",
                  status := .available, errorMessage := "",
                  statusUpdatedAt := 0, podId := "p", expiresAt := 100,
                  id := "r1", displayName := "", workloadType := "" }],
      writeOutcomes := [] }
    { owner := "a", k8sVersion := "1.33", status := .available,
      errorMessage := "", statusUpdatedAt := 0, podId := "p",
      expiresAt := 100, id := "r1", displayName := "", workloadType := "" }
    rfl (by decide) (by decide)
  exact h.1 (by decide) (by decide) (by decide) (by decide)

/-! ## C5 — the terminal resize queue -/

/-- C5, the claim as frozen, evaluated at the sizes of the specification
scenario (100×30, 120×30, 80×24): it asserts that after submitting A, B, C
to an unconsumed queue the pending sizes are `[A, C]` or `[C]`.  The code
instead discards the oldest pending size A and keeps `[B, C]`, so the claim
as stated is false. -/
theorem resize_coalescing_claim_counterexample :
    ¬ (sessionResize (sessionResize (sessionResize []
          ⟨100, 30⟩) ⟨120, 30⟩) ⟨80, 24⟩ =
        [⟨100, 30⟩, ⟨80, 24⟩] ∨
       sessionResize (sessionResize (sessionResize []
          ⟨100, 30⟩) ⟨120, 30⟩) ⟨80, 24⟩ = [(⟨80, 24⟩ : TerminalSize)]) := by
  decide

/-- C5 (amended): the resize queue has depth 2 and coalesces when full by
discarding the oldest pending size in favor of the new one: submitting
A, B, C in rapid succession to an unconsumed queue leaves the exec stream
to receive exactly `[B, C]` — the newest size is never the one dropped
(for any queue within its bound, the just-submitted size is always the last
pending one). -/
theorem resize_queue_coalesces (A B C : TerminalSize)
    (q : List TerminalSize) (s : TerminalSize) (hq : q.length ≤ 2) :
    sessionResize (sessionResize (sessionResize [] A) B) C = [B, C] ∧
    (sessionResize q s).length ≤ 2 ∧
    (sessionResize q s).getLast? = some s := by
  refine ⟨by simp [sessionResize], ?_, ?_⟩
  · unfold sessionResize
    by_cases h : q.length < 2
    · simp only [h, if_true, List.length_append, List.length_cons,
        List.length_nil]
      omega
    · simp only [h, if_false]
      cases q with
      | nil => simp
      | cons a t =>
        simp only [List.length_cons] at h hq ⊢
        simp only [List.length_append, List.length_cons, List.length_nil]
        omega
  · unfold sessionResize
    by_cases h : q.length < 2
    · simp [h, List.getLast?_concat]
    · simp only [h, if_false]
      cases q with
      | nil => simp at h
      | cons a t => simp [List.getLast?_concat]

/-- Witness for `resize_queue_coalesces` at concrete sizes and a concrete
full queue. -/
theorem resize_queue_coalesces_witness :
    sessionResize (sessionResize (sessionResize []
        (⟨100, 30⟩ : TerminalSize)) ⟨120, 30⟩) ⟨80, 24⟩ =
      [⟨120, 30⟩, ⟨80, 24⟩] ∧
    (sessionResize [⟨1, 1⟩, ⟨2, 2⟩] (⟨3, 3⟩ : TerminalSize)).length ≤ 2 ∧
    (sessionResize [⟨1, 1⟩, ⟨2, 2⟩] (⟨3, 3⟩ : TerminalSize)).getLast? =
      some ⟨3, 3⟩ :=
  resize_queue_coalesces ⟨100, 30⟩ ⟨120, 30⟩ ⟨80, 24⟩
    [⟨1, 1⟩, ⟨2, 2⟩] ⟨3, 3⟩ (by decide)

/-! ## Killer lemmas -/

/-- Full characterization of one Killer record pass when the status write is
accepted: the pass succeeds, the store holds the record as `terminated` with
the write time, the world sees the type-appropriate deletion exactly when a
pod id is recorded, and the event order puts the status write first. -/
theorem processShutdownItem_eq (now : Nat) (st : Store) (w : K8sWorld)
    (item : QueueItem) (hW : st.writeOutcomes = []) :
    processShutdownItem now st w item =
      (.ok (),
       { items := upsert st.items
           { item with status := .terminated, statusUpdatedAt := now },
         writeOutcomes := [] },
       (if item.podId = "" then w
        else (if item.workloadType = "deployment" then
                DeleteDinDDeployment w item.podId
              else DeleteDinDStatefulSet w item.podId).1),
       (if item.podId = "" then
          [KillerEvent.writeStatus item.id .terminated]
        else
          [KillerEvent.writeStatus item.id .terminated,
           KillerEvent.deleteWorkload item.podId item.workloadType])) := by
  simp only [processShutdownItem]
  rw [updateItem_success now st _ hW]
  by_cases hp : item.podId = ""
  · simp [hp]
  · simp [hp]

theorem kubeDelete_no_hard (w : K8sWorld) (objs : List String)
    (f : List String → K8sWorld) (n : String) (h : w.apiDown = false)
    (hf : ∀ l, (f l).apiDown = false) :
    (kubeDelete w objs f n).2.isHardError = false ∧
    (kubeDelete w objs f n).1.apiDown = false := by
  simp only [kubeDelete, h, Bool.false_eq_true, if_false]
  by_cases hc : objs.contains n
  · simp only [hc, if_true]
    exact ⟨rfl, hf _⟩
  · simp only [hc, Bool.false_eq_true, if_false]
    exact ⟨rfl, h⟩

theorem deleteStatefulSetObj_spec (w : K8sWorld) (n : String)
    (h : w.apiDown = false) :
    (deleteStatefulSetObj w n).2.isHardError = false ∧
    (deleteStatefulSetObj w n).1.apiDown = false :=
  kubeDelete_no_hard w w.statefulSets
    (fun l => { w with statefulSets := l }) n h (fun _ => h)

theorem deleteDeploymentObj_spec (w : K8sWorld) (n : String)
    (h : w.apiDown = false) :
    (deleteDeploymentObj w n).2.isHardError = false ∧
    (deleteDeploymentObj w n).1.apiDown = false :=
  kubeDelete_no_hard w w.deployments
    (fun l => { w with deployments := l }) n h (fun _ => h)

theorem deleteServiceObj_spec (w : K8sWorld) (n : String)
    (h : w.apiDown = false) :
    (deleteServiceObj w n).2.isHardError = false ∧
    (deleteServiceObj w n).1.apiDown = false :=
  kubeDelete_no_hard w w.services
    (fun l => { w with services := l }) n h (fun _ => h)

theorem deletePvcObj_spec (w : K8sWorld) (n : String)
    (h : w.apiDown = false) :
    (deletePvcObj w n).2.isHardError = false ∧
    (deletePvcObj w n).1.apiDown = false :=
  kubeDelete_no_hard w w.pvcs
    (fun l => { w with pvcs := l }) n h (fun _ => h)

theorem DeleteDinDStatefulSet_ok (w : K8sWorld) (n : String)
    (h : w.apiDown = false) :
    (DeleteDinDStatefulSet w n).2 = .ok () ∧
    (DeleteDinDStatefulSet w n).1.apiDown = false := by
  have h1 := deleteStatefulSetObj_spec w n h
  have h2 := deleteServiceObj_spec (deleteStatefulSetObj w n).1 n h1.2
  have h3 := deletePvcObj_spec (deleteServiceObj (deleteStatefulSetObj w n).1 n).1
    ("docker-graph-storage-" ++ n ++ "-0") h2.2
  simp only [DeleteDinDStatefulSet]
  rw [h1.1]
  simp only [Bool.false_eq_true, if_false]
  rw [h2.1]
  simp only [Bool.false_eq_true, if_false]
  rw [h3.1]
  simp only [Bool.false_eq_true, if_false]
  exact ⟨by trivial, h3.2⟩

theorem DeleteDinDDeployment_ok (w : K8sWorld) (n : String)
    (h : w.apiDown = false) :
    (DeleteDinDDeployment w n).2 = .ok () ∧
    (DeleteDinDDeployment w n).1.apiDown = false := by
  have h1 := deleteDeploymentObj_spec w n h
  have h2 := deleteServiceObj_spec (deleteDeploymentObj w n).1 n h1.2
  simp only [DeleteDinDDeployment]
  rw [h1.1]
  simp only [Bool.false_eq_true, if_false]
  rw [h2.1]
  simp only [Bool.false_eq_true, if_false]
  exact ⟨by trivial, h2.2⟩

/-! ## C1 — Killer writes `terminated` before deleting, and a failed delete
is only logged -/

/-- C1: a `shutdown` record processed by the Killer is written `terminated`
to the store *before* any workload deletion is attempted (the event list
puts the status write first), and the pass reports success for every world —
including worlds in which the deletion fails — so the status stays
`terminated`; the loop wrapper takes its success branch and never writes
`error` for this record. -/
theorem killer_terminated_before_delete (now : Nat) (st : Store)
    (w : K8sWorld) (item : QueueItem) (hW : st.writeOutcomes = []) :
    (processShutdownItem now st w item).1 = .ok () ∧
    findItem (processShutdownItem now st w item).2.1.items item.id =
      some { item with status := .terminated, statusUpdatedAt := now } ∧
    ((processShutdownItem now st w item).2.2.2 =
       [KillerEvent.writeStatus item.id .terminated] ∨
     (processShutdownItem now st w item).2.2.2 =
       [KillerEvent.writeStatus item.id .terminated,
        KillerEvent.deleteWorkload item.podId item.workloadType]) ∧
    killerHandleItem now item (st, w) =
      ((processShutdownItem now st w item).2.1,
       (processShutdownItem now st w item).2.2.1) := by
  rw [processShutdownItem_eq now st w item hW]
  refine ⟨rfl, ?_, ?_, ?_⟩
  · have := findItem_upsert_self st.items
      { item with status := .terminated, statusUpdatedAt := now }
    simpa using this
  · by_cases hp : item.podId = ""
    · left
      simp [hp]
    · right
      simp [hp]
  · simp only [killerHandleItem]
    rw [processShutdownItem_eq now st w item hW]

/-- Witness for `killer_terminated_before_delete`: a concrete record with a
recorded pod id, against a world where the outer API is down (every delete
fails); the record still ends `terminated` and the pass still succeeds. -/
theorem killer_terminated_before_delete_witness :
    (processShutdownItem 7
        { items := [{ owner := "a", k8sVersion := "1.33",
                      status := .shutdown, errorMessage := "",
                      statusUpdatedAt := 3, podId := "k8s-playground-ab",
                      expiresAt := 100, id := "r1", displayName := "",
                      workloadType := "" }],
          writeOutcomes := [] }
        { statefulSets := ["k8s-playground-ab"], deployments := [],
          services := ["k8s-playground-ab"], pvcs := [], apiDown := true }
        { owner := "a", k8sVersion := "1.33", status := .shutdown,
          errorMessage := "", statusUpdatedAt := 3,
          podId := "k8s-playground-ab", expiresAt := 100, id := "r1",
          displayName := "", workloadType := "" }).1 = .ok () ∧
    findItem (processShutdownItem 7
        { items := [{ owner := "a", k8sVersion := "1.33",
                      status := .shutdown, errorMessage := "",
                      statusUpdatedAt := 3, podId := "k8s-playground-ab",
                      expiresAt := 100, id := "r1", displayName := "",
                      workloadType := "" }],
          writeOutcomes := [] }
        { statefulSets := ["k8s-playground-ab"], deployments := [],
          services := ["k8s-playground-ab"], pvcs := [], apiDown := true }
        { owner := "a", k8sVersion := "1.33", status := .shutdown,
          errorMessage := "", statusUpdatedAt := 3,
          podId := "k8s-playground-ab", expiresAt := 100, id := "r1",
          displayName := "", workloadType := "" }).2.1.items "r1" =
      some { owner := "a", k8sVersion := "1.33", status := .terminated,
             errorMessage := "", statusUpdatedAt := 7,
             podId := "k8s-playground-ab", expiresAt := 100, id := "r1",
             displayName := "", workloadType := "" } := by
  have h := killer_terminated_before_delete 7
    { items := [{ owner := "a", k8sVersion := "1.33",
                  status := .shutdown, errorMessage := "",
                  statusUpdatedAt := 3, podId := "k8s-playground-ab",
                  expiresAt := 100, id := "r1", displayName := "",
                  workloadType := "" }],
      writeOutcomes := [] }
    { statefulSets := ["k8s-playground-ab"], deployments := [],
      services := ["k8s-playground-ab"], pvcs := [], apiDown := true }
    { owner := "a", k8sVersion := "1.33", status := .shutdown,
      errorMessage := "", statusUpdatedAt := 3,
      podId := "k8s-playground-ab", expiresAt := 100, id := "r1",
      displayName := "", workloadType := "" } rfl
  exact ⟨h.1, h.2.1⟩

/-! ## C9 — Killer idempotence and NotFound-as-success -/

/-- C9: with a healthy backend and an outer API that answers (so the only
delete "failures" are NotFound), running the Killer pass twice on the same
`shutdown` record succeeds both times and leaves the record `terminated`
both times; and the Cluster Driver deletions — the workload object, its
service, and (stateful flavor) the PVC `docker-graph-storage-{name}-0` —
return success on every such world, in particular when the objects are
already gone and every delete answers NotFound. -/
theorem killer_idempotent (now1 now2 : Nat) (st : Store) (w : K8sWorld)
    (item : QueueItem) (hW : st.writeOutcomes = []) :
    (processShutdownItem now1 st w item).1 = .ok () ∧
    findItem (processShutdownItem now1 st w item).2.1.items item.id =
      some { item with status := .terminated, statusUpdatedAt := now1 } ∧
    (processShutdownItem now2 (processShutdownItem now1 st w item).2.1
        (processShutdownItem now1 st w item).2.2.1 item).1 = .ok () ∧
    findItem (processShutdownItem now2 (processShutdownItem now1 st w item).2.1
        (processShutdownItem now1 st w item).2.2.1 item).2.1.items item.id =
      some { item with status := .terminated, statusUpdatedAt := now2 } ∧
    (∀ w2 n, w2.apiDown = false → (DeleteDinDStatefulSet w2 n).2 = .ok ()) ∧
    (∀ w2 n, w2.apiDown = false → (DeleteDinDDeployment w2 n).2 = .ok ()) := by
  have h1 := processShutdownItem_eq now1 st w item hW
  have hW1 : (processShutdownItem now1 st w item).2.1.writeOutcomes = [] := by
    rw [h1]
  have h2 := processShutdownItem_eq now2 (processShutdownItem now1 st w item).2.1
    (processShutdownItem now1 st w item).2.2.1 item hW1
  refine ⟨by rw [h1], ?_, by rw [h2], ?_, ?_, ?_⟩
  · rw [h1]
    have := findItem_upsert_self st.items
      { item with status := .terminated, statusUpdatedAt := now1 }
    simpa using this
  · rw [h2]
    have := findItem_upsert_self
      (processShutdownItem now1 st w item).2.1.items
      { item with status := .terminated, statusUpdatedAt := now2 }
    simpa using this
  · exact fun w2 n h => (DeleteDinDStatefulSet_ok w2 n h).1
  · exact fun w2 n h => (DeleteDinDDeployment_ok w2 n h).1

/-- Witness for `killer_idempotent` at a concrete stateful record whose
workload objects exist on the first pass and are gone (NotFound) on the
second. -/
theorem killer_idempotent_witness :
    findItem (processShutdownItem 9 (processShutdownItem 5
        { items := [{ owner := "a", k8sVersion := "1.33",
                      status := .shutdown, errorMessage := "",
                      statusUpdatedAt := 3, podId := "k8s-playground-ab",
                      expiresAt := 100, id := "r1", displayName := "",
                      workloadType := "" }],
          writeOutcomes := [] }
        { statefulSets := ["k8s-playground-ab"], deployments := [],
          services := ["k8s-playground-ab"],
          pvcs := ["docker-graph-storage-k8s-playground-ab-0"],
          apiDown := false }
        { owner := "a", k8sVersion := "1.33", status := .shutdown,
          errorMessage := "", statusUpdatedAt := 3,
          podId := "k8s-playground-ab", expiresAt := 100, id := "r1",
          displayName := "", workloadType := "" }).2.1
        (processShutdownItem 5
        { items := [{ owner := "a", k8sVersion := "1.33",
                      status := .shutdown, errorMessage := "",
                      statusUpdatedAt := 3, podId := "k8s-playground-ab",
                      expiresAt := 100, id := "r1", displayName := "",
                      workloadType := "" }],
          writeOutcomes := [] }
        { statefulSets := ["k8s-playground-ab"], deployments := [],
          services := ["k8s-playground-ab"],
          pvcs := ["docker-graph-storage-k8s-playground-ab-0"],
          apiDown := false }
        { owner := "a", k8sVersion := "1.33", status := .shutdown,
          errorMessage := "", statusUpdatedAt := 3,
          podId := "k8s-playground-ab", expiresAt := 100, id := "r1",
          displayName := "", workloadType := "" }).2.2.1
        { owner := "a", k8sVersion := "1.33", status := .shutdown,
          errorMessage := "", statusUpdatedAt := 3,
          podId := "k8s-playground-ab", expiresAt := 100, id := "r1",
          displayName := "", workloadType := "" }).2.1.items "r1" =
      some { owner := "a", k8sVersion := "1.33", status := .terminated,
             errorMessage := "", statusUpdatedAt := 9,
             podId := "k8s-playground-ab", expiresAt := 100, id := "r1",
             displayName := "", workloadType := "" } := by
  have h := killer_idempotent 5 9
    { items := [{ owner := "a", k8sVersion := "1.33",
                  status := .shutdown, errorMessage := "",
                  statusUpdatedAt := 3, podId := "k8s-playground-ab",
                  expiresAt := 100, id := "r1", displayName := "",
                  workloadType := "" }],
      writeOutcomes := [] }
    { statefulSets := ["k8s-playground-ab"], deployments := [],
      services := ["k8s-playground-ab"],
      pvcs := ["docker-graph-storage-k8s-playground-ab-0"],
      apiDown := false }
    { owner := "a", k8sVersion := "1.33", status := .shutdown,
      errorMessage := "", statusUpdatedAt := 3,
      podId := "k8s-playground-ab", expiresAt := 100, id := "r1",
      displayName := "", workloadType := "" } rfl
  exact h.2.2.2.1

/-! ## C6 — storage failures in a control loop -/

/-- C6, the claim as frozen, refuted at a concrete input: one `shutdown`
record, a backend that rejects the Killer's `terminated` write and accepts
the next write.  The claim says the loop leaves the stored record unchanged
(status `shutdown`) and writes no other status; the code instead escalates,
writing `status = error` with the failure text. -/
theorem killer_storage_failure_counterexample :
    (findItem (processShutdownItems 5
        { items := [{ owner := "a", k8sVersion := "1.33",
                      status := .shutdown, errorMessage := "",
                      statusUpdatedAt := 3, podId := "p", expiresAt := 100,
                      id := "r1", displayName := "", workloadType := "" }],
          writeOutcomes := [false, true] }
        { statefulSets := [], deployments := [], services := [], pvcs := [],
          apiDown := false }).1.items "r1").map QueueItem.status =
      some QueueStatus.error ∧
    QueueStatus.error ≠ QueueStatus.shutdown := by
  constructor
  · decide
  · decide

/-- C6 (amended): when a control loop's write to the work queue fails, the
loop logs the failure and attempts one follow-up write that marks the record
`error` with its failure text; only if the storage outage persists so that
this follow-up write fails too is the record's stored state left unchanged,
to be retried on the loop's next tick.  Stated for all three loop bodies:
the Killer's (`processShutdownItems`), the Generator's
(`processPendingItems`, for any continuation past the version lookup) and
the Collector's (`cleanupItems`, whose write happens on a record due for
collection). -/
theorem loop_storage_failure (now : Nat) (items : List QueueItem)
    (w : K8sWorld) (item : QueueItem) (cfg : List (String × String))
    (k : Store → QueueItem → String → Except String Unit × Store) :
    (killerHandleItem now item
        ({ items := items, writeOutcomes := [false, false] }, w)).1.items =
      items ∧
    findItem (killerHandleItem now item
        ({ items := items, writeOutcomes := [false, true] }, w)).1.items
        item.id =
      some { item with
             status := .error
             errorMessage := "failed to update item status to terminating"
             statusUpdatedAt := now } ∧
    (generatorHandleItem cfg now item k
        { items := items, writeOutcomes := [false, false] }).items = items ∧
    findItem (generatorHandleItem cfg now item k
        { items := items, writeOutcomes := [false, true] }).items item.id =
      some { item with
             status := .error
             errorMessage := "failed to update item status to generating"
             statusUpdatedAt := now } ∧
    (item.shouldBeCollected now = true →
      (collectorHandleItem now item
          { items := items, writeOutcomes := [false, false] }).items =
        items) ∧
    (item.shouldBeCollected now = true →
      findItem (collectorHandleItem now item
          { items := items, writeOutcomes := [false, true] }).items item.id =
        some { item with
               status := .error
               errorMessage := "Failed to mark for shutdown during collection"
               statusUpdatedAt := now }) := by
  refine ⟨?_, ?_, ?_, ?_, ?_, ?_⟩
  · simp [killerHandleItem, processShutdownItem, updateItem, Store.nextWrite]
  · simp only [killerHandleItem, processShutdownItem, updateItem,
      Store.nextWrite]
    simp only [Bool.false_eq_true, if_false, not_false_iff, if_true]
    have := findItem_upsert_self items
      { item with
        status := .error
        errorMessage := "failed to update item status to terminating"
        statusUpdatedAt := now }
    simpa using this
  · simp [generatorHandleItem, processItemStart, updateItem, Store.nextWrite]
  · simp only [generatorHandleItem, processItemStart, updateItem,
      Store.nextWrite]
    simp only [Bool.false_eq_true, if_false, not_false_iff, if_true]
    have := findItem_upsert_self items
      { item with
        status := .error
        errorMessage := "failed to update item status to generating"
        statusUpdatedAt := now }
    simpa using this
  · intro hc
    simp [collectorHandleItem, hc, updateItem, Store.nextWrite]
  · intro hc
    simp only [collectorHandleItem, hc, if_true, updateItem, Store.nextWrite]
    simp only [Bool.false_eq_true, if_false, if_true]
    have := findItem_upsert_self items
      { item with
        status := .error
        errorMessage := "Failed to mark for shutdown during collection"
        statusUpdatedAt := now }
    simpa using this

/-- Witness for `loop_storage_failure`: a concrete expired `available`
record, so the Collector branch is exercised; the Killer conjunct is taken
at a persisting outage (store unchanged) and the Collector conjunct at a
recovering one (record marked `error`). -/
theorem loop_storage_failure_witness :
    (killerHandleItem 5
        { owner := "a", k8sVersion := "1.33", status := .available,
          errorMessage := "", statusUpdatedAt := 0, podId := "p",
          expiresAt := 1, id := "r1", displayName := "", workloadType := "" }
        ({ items := [{ owner := "a", k8sVersion := "1.33",
                       status := .available, errorMessage := "",
                       statusUpdatedAt := 0, podId := "p", expiresAt := 1,
                       id := "r1", displayName := "", workloadType := "" }],
           writeOutcomes := [false, false] },
         { statefulSets := [], deployments := [], services := [], pvcs := [],
           apiDown := false })).1.items =
      [{ owner := "a", k8sVersion := "1.33", status := .available,
         errorMessage := "", statusUpdatedAt := 0, podId := "p",
         expiresAt := 1, id := "r1", displayName := "",
         workloadType := "" }] ∧
    findItem (collectorHandleItem 5
        { owner := "a", k8sVersion := "1.33", status := .available,
          errorMessage := "", statusUpdatedAt := 0, podId := "p",
          expiresAt := 1, id := "r1", displayName := "", workloadType := "" }
        { items := [{ owner := "a", k8sVersion := "1.33",
                      status := .available, errorMessage := "",
                      statusUpdatedAt := 0, podId := "p", expiresAt := 1,
                      id := "r1", displayName := "", workloadType := "" }],
          writeOutcomes := [false, true] }).items "r1" =
      some { owner := "a", k8sVersion := "1.33", status := .error,
             errorMessage := "Failed to mark for shutdown during collection",
             statusUpdatedAt := 5, podId := "p", expiresAt := 1, id := "r1",
             displayName := "", workloadType := "" } := by
  have h := loop_storage_failure 5
    [{ owner := "a", k8sVersion := "1.33", status := .available,
       errorMessage := "", statusUpdatedAt := 0, podId := "p",
       expiresAt := 1, id := "r1", displayName := "", workloadType := "" }]
    { statefulSets := [], deployments := [], services := [], pvcs := [],
      apiDown := false }
    { owner := "a", k8sVersion := "1.33", status := .available,
      errorMessage := "", statusUpdatedAt := 0, podId := "p",
      expiresAt := 1, id := "r1", displayName := "", workloadType := "" }
    [] (fun s _ _ => (.ok (), s))
  exact ⟨h.1, h.2.2.2.2.2 (by decide)⟩

/-! ## C7 — the Generator on an unknown k8sVersion -/

theorem joinSpace_contains (ks : List String) :
    ∀ k ∈ ks, ∃ pre post, (joinSpace ks).data = pre ++ k.data ++ post := by
  induction ks with
  | nil =>
    intro k hk
    simp at hk
  | cons a rest ih =>
    intro k hk
    rcases List.mem_cons.mp hk with h | h
    · subst h
      cases rest with
      | nil => exact ⟨[], [], by simp [joinSpace]⟩
      | cons b t =>
        refine ⟨[], (" " ++ joinSpace (b :: t)).data, ?_⟩
        simp [joinSpace, String.data_append, List.append_assoc]
    · cases rest with
      | nil => simp at h
      | cons b t =>
        obtain ⟨pre, post, hpp⟩ := ih k h
        refine ⟨(a ++ " ").data ++ pre, post, ?_⟩
        simp [joinSpace, String.data_append, hpp, List.append_assoc]

theorem unsupportedVersionMsg_contains (v : String) (ks : List String) :
    ∀ k ∈ ks, ∃ pre post,
      (unsupportedVersionMsg v ks).data = pre ++ k.data ++ post := by
  intro k hk
  obtain ⟨pre, post, hpp⟩ := joinSpace_contains ks k hk
  refine ⟨("unsupported k8s version for DinD image: " ++ v ++
    ". Check DIND_IMAGE_VERSIONS_JSON configuration. Available versions: " ++
    "[").data ++ pre, post ++ "]".data, ?_⟩
  simp [unsupportedVersionMsg, renderKeys, String.data_append, hpp,
    List.append_assoc]

/-- C7: a pending record whose `k8sVersion` has no entry in the configured
version→image map is transitioned by the Generator to `error`, with an
`errorMessage` that carries every configured version (each key of the map
occurs verbatim in the message, inside the rendered list of known
versions). -/
theorem generator_unknown_version (cfg : List (String × String)) (now : Nat)
    (st : Store) (item : QueueItem)
    (k : Store → QueueItem → String → Except String Unit × Store)
    (hW : st.writeOutcomes = [])
    (hv : lookupVersion cfg item.k8sVersion = none) :
    (processItemStart cfg now st item k).1 =
      .error (unsupportedVersionMsg item.k8sVersion (getMapKeys cfg)) ∧
    findItem (processItemStart cfg now st item k).2.items item.id =
      some { item with
             status := .error
             errorMessage :=
               unsupportedVersionMsg item.k8sVersion (getMapKeys cfg)
             statusUpdatedAt := now } ∧
    (∀ v ∈ getMapKeys cfg, ∃ pre post,
      (unsupportedVersionMsg item.k8sVersion (getMapKeys cfg)).data =
        pre ++ v.data ++ post) := by
  simp only [processItemStart]
  rw [updateItem_success now st _ hW]
  simp only [hv, not_true, Bool.not_true, if_false, not_false_iff, if_true]
  refine ⟨by trivial, ?_,
    unsupportedVersionMsg_contains item.k8sVersion (getMapKeys cfg)⟩
  rw [updateItem_success now _ _ rfl]
  have := findItem_upsert_self
    (upsert st.items { item with status := .generating, statusUpdatedAt := now })
    { item with
      status := .error
      errorMessage := unsupportedVersionMsg item.k8sVersion (getMapKeys cfg)
      statusUpdatedAt := now }
  simpa using this

/-- Witness for `generator_unknown_version`: version `9.99` against a map
holding `1.32` and `1.33`. -/
theorem generator_unknown_version_witness :
    (processItemStart [("1.32", "v1.32.0"), ("1.33", "v1.33.1")] 4
        { items := [{ owner := "a", k8sVersion := "9.99",
                      status := .pending, errorMessage := "",
                      statusUpdatedAt := 0, podId := "", expiresAt := 100,
                      id := "r1", displayName := "", workloadType := "" }],
          writeOutcomes := [] }
        { owner := "a", k8sVersion := "9.99", status := .pending,
          errorMessage := "", statusUpdatedAt := 0, podId := "",
          expiresAt := 100, id := "r1", displayName := "",
          workloadType := "" }
        (fun s _ _ => (.ok (), s))).1 =
      .error (unsupportedVersionMsg "9.99" ["1.32", "1.33"]) ∧
    (∃ pre post, (unsupportedVersionMsg "9.99" ["1.32", "1.33"]).data =
      pre ++ "1.33".data ++ post) := by
  have h := generator_unknown_version [("1.32", "v1.32.0"), ("1.33", "v1.33.1")] 4
    { items := [{ owner := "a", k8sVersion := "9.99",
                  status := .pending, errorMessage := "",
                  statusUpdatedAt := 0, podId := "", expiresAt := 100,
                  id := "r1", displayName := "", workloadType := "" }],
      writeOutcomes := [] }
    { owner := "a", k8sVersion := "9.99", status := .pending,
      errorMessage := "", statusUpdatedAt := 0, podId := "",
      expiresAt := 100, id := "r1", displayName := "", workloadType := "" }
    (fun s _ _ => (.ok (), s)) rfl (by decide)
  exact ⟨h.1, h.2.2 "1.33" (by decide)⟩

/-! ## C4 — ownership enforcement on resource-bound handlers -/

/-- C4: for each resource-bound handler — destroy, rename, services, attach,
proxy — an authenticated principal that is not the stored record's owner
receives Forbidden (403) and the store is returned unchanged, whatever the
abstracted downstream outcomes would have been. -/
theorem ownership_forbidden (now : Nat) (st : Store)
    (ownerID envID dispName : String) (item : QueueItem) (k8sOk : Bool)
    (proxyCode : Nat)
    (hfind : findItem st.items envID = some item)
    (howner : ¬ item.owner = ownerID)
    (hd1 : ¬ dispName = "") (hd2 : dispName.length ≤ 50) :
    destroyEnvironment now st ownerID envID = (403, st) ∧
    updateEnvironmentDisplayName now st ownerID envID dispName = (403, st) ∧
    getEnvironmentServices st ownerID envID k8sOk = (403, st) ∧
    connectEnvironment st ownerID envID k8sOk = (403, st) ∧
    proxyToPod st ownerID envID proxyCode = (403, st) := by
  have hd2' : ¬ dispName.length > 50 := by omega
  refine ⟨?_, ?_, ?_, ?_, ?_⟩
  · simp [destroyEnvironment, hfind, howner]
  · simp [updateEnvironmentDisplayName, hfind, howner, hd1, hd2']
  · simp [getEnvironmentServices, hfind, howner]
  · simp [connectEnvironment, hfind, howner]
  · simp [proxyToPod, hfind, howner]

/-- Witness for `ownership_forbidden`: user `b@example.com` requesting a
record owned by `a@example.com`. -/
theorem ownership_forbidden_witness :
    destroyEnvironment 9
      { items := [{ owner := "a@example.com", k8sVersion := "1.33",
                    status := .available, errorMessage := "",
                    statusUpdatedAt := 0, podId := "p", expiresAt := 100,
                    id := "r1", displayName := "", workloadType := "" }],
        writeOutcomes := [] } "b@example.com" "r1" =
      (403,
       { items := [{ owner := "a@example.com", k8sVersion := "1.33",
                     status := .available, errorMessage := "",
                     statusUpdatedAt := 0, podId := "p", expiresAt := 100,
                     id := "r1", displayName := "", workloadType := "" }],
         writeOutcomes := [] }) ∧
    getEnvironmentServices
      { items := [{ owner := "a@example.com", k8sVersion := "1.33",
                    status := .available, errorMessage := "",
                    statusUpdatedAt := 0, podId := "p", expiresAt := 100,
                    id := "r1", displayName := "", workloadType := "" }],
        writeOutcomes := [] } "b@example.com" "r1" true =
      (403,
       { items := [{ owner := "a@example.com", k8sVersion := "1.33",
                     status := .available, errorMessage := "",
                     statusUpdatedAt := 0, podId := "p", expiresAt := 100,
                     id := "r1", displayName := "", workloadType := "" }],
         writeOutcomes := [] }) := by
  have h := ownership_forbidden 9
    { items := [{ owner := "a@example.com", k8sVersion := "1.33",
                  status := .available, errorMessage := "",
                  statusUpdatedAt := 0, podId := "p", expiresAt := 100,
                  id := "r1", displayName := "", workloadType := "" }],
      writeOutcomes := [] } "b@example.com" "r1" "lab"
    { owner := "a@example.com", k8sVersion := "1.33", status := .available,
      errorMessage := "", statusUpdatedAt := 0, podId := "p",
      expiresAt := 100, id := "r1", displayName := "", workloadType := "" }
    true 200 (by decide) (by decide) (by decide) (by decide)
  exact ⟨h.1, h.2.2.1⟩

/-! ## C3 — `statusUpdatedAt` is set on every write and is monotone -/

theorem updateItem_sets_time (now : Nat) (s : Store) (it : QueueItem)
    (h : (updateItem now s it).2 = true) :
    findItem (updateItem now s it).1.items it.id =
      some { it with statusUpdatedAt := now } := by
  obtain ⟨items, outs⟩ := s
  rcases outs with _ | ⟨b, rest⟩
  · have := findItem_upsert_self items { it with statusUpdatedAt := now }
    simpa [updateItem, Store.nextWrite] using this
  · cases b
    · simp [updateItem, Store.nextWrite] at h
    · have := findItem_upsert_self items { it with statusUpdatedAt := now }
      simpa [updateItem, Store.nextWrite] using this

theorem statusTimeTrace_sorted_aux (r : String) (ws : List (QueueItem × Nat)) :
    ∀ (s : Store), s.writeOutcomes = [] →
      List.Sorted (· ≤ ·) (ws.map Prod.snd) →
      (∀ v, findItem s.items r = some v →
        ∀ t ∈ ws.map Prod.snd, v.statusUpdatedAt ≤ t) →
      List.Sorted (· ≤ ·) (statusTimeTrace s ws r) ∧
      (∀ x ∈ statusTimeTrace s ws r, ∀ v, findItem s.items r = some v →
        v.statusUpdatedAt ≤ x) := by
  induction ws with
  | nil =>
    intro s hW _ _
    refine ⟨by simp [statusTimeTrace, runUpdates], ?_⟩
    intro x hx
    simp [statusTimeTrace, runUpdates] at hx
  | cons w rest ih =>
    intro s hW hsorted hinit
    obtain ⟨it, t⟩ := w
    have hmap : ((it, t) :: rest).map Prod.snd = t :: rest.map Prod.snd := rfl
    rw [hmap] at hsorted hinit
    have hsc := List.sorted_cons.mp hsorted
    have hs1W : (updateItem t s it).1.writeOutcomes = [] :=
      updateItem_writeOutcomes_nil t s it hW
    have hstep : (updateItem t s it).1.items =
        upsert s.items { it with statusUpdatedAt := t } := by
      rw [updateItem_success t s it hW]
    have htrace : statusTimeTrace s ((it, t) :: rest) r =
        ((findItem (updateItem t s it).1.items r).map
            QueueItem.statusUpdatedAt).toList ++
          statusTimeTrace (updateItem t s it).1 rest r := by
      simp only [statusTimeTrace, runUpdates, List.filterMap_cons]
      rcases hop : (findItem (updateItem t s it).1.items r).map
          QueueItem.statusUpdatedAt with _ | x
      · simp [hop]
      · simp [hop]
    by_cases hid : it.id = r
    · have hfind1 : findItem (updateItem t s it).1.items r =
          some { it with statusUpdatedAt := t } := by
        rw [hstep, ← hid]
        have := findItem_upsert_self s.items { it with statusUpdatedAt := t }
        simpa using this
      have hih := ih (updateItem t s it).1 hs1W hsc.2
        (by
          intro v hv t2 ht2
          rw [hfind1] at hv
          cases hv
          exact hsc.1 t2 ht2)
      rw [htrace, hfind1]
      constructor
      · refine List.sorted_cons.mpr ⟨?_, hih.1⟩
        intro b hb
        exact hih.2 b hb { it with statusUpdatedAt := t } hfind1
      · intro x hx v hv
        have hvt : v.statusUpdatedAt ≤ t :=
          hinit v hv t (List.mem_cons_self t _)
        simp at hx
        rcases hx with hx | hx
        · simpa [hx] using hvt
        · exact le_trans hvt
            (hih.2 x hx { it with statusUpdatedAt := t } hfind1)
    · have hfind1 : findItem (updateItem t s it).1.items r =
          findItem s.items r := by
        rw [hstep]
        exact findItem_upsert_ne _ _ _ (by simpa using fun hc => hid hc.symm)
      have hih := ih (updateItem t s it).1 hs1W hsc.2
        (by
          intro v hv t2 ht2
          rw [hfind1] at hv
          exact hinit v hv t2 (List.mem_cons_of_mem t ht2))
      rw [htrace, hfind1]
      rcases hfs : findItem s.items r with _ | v0
      · simp only [Option.map, Option.toList, List.nil_append]
        refine ⟨hih.1, ?_⟩
        intro x hx v hv
        simp at hv
      · simp only [Option.map, Option.toList, List.singleton_append]
        have hv0find : findItem (updateItem t s it).1.items r = some v0 := by
          rw [hfind1, hfs]
        constructor
        · refine List.sorted_cons.mpr ⟨?_, hih.1⟩
          intro b hb
          exact hih.2 b hb v0 hv0find
        · intro x hx v hv
          cases hv
          simp only [List.mem_cons] at hx
          rcases hx with hx | hx
          · simp [hx]
          · exact hih.2 x hx v0 hv0find

/-- C3: every successful write through `UpdateItem` stores the record with
`statusUpdatedAt` equal to the time of the write; consequently, starting
from a store that does not yet hold record `r`, the `statusUpdatedAt` values
observable for `r` across any sequence of writes with non-decreasing write
times form a monotonically non-decreasing sequence. -/
theorem statusUpdatedAt_monotone (s : Store) (ws : List (QueueItem × Nat))
    (r : String) (hW : s.writeOutcomes = [])
    (hsorted : List.Sorted (· ≤ ·) (ws.map Prod.snd))
    (hinit : findItem s.items r = none) :
    (∀ (now2 : Nat) (s2 : Store) (it2 : QueueItem),
      (updateItem now2 s2 it2).2 = true →
        findItem (updateItem now2 s2 it2).1.items it2.id =
          some { it2 with statusUpdatedAt := now2 }) ∧
    List.Sorted (· ≤ ·) (statusTimeTrace s ws r) := by
  refine ⟨updateItem_sets_time, ?_⟩
  have h := statusTimeTrace_sorted_aux r ws s hW hsorted
    (by
      intro v hv
      rw [hinit] at hv
      cases hv)
  exact h.1

/-- Witness for `statusUpdatedAt_monotone`: two writes to one record at
times 3 then 7 starting from an empty store. -/
theorem statusUpdatedAt_monotone_witness :
    (findItem (updateItem 5 { items := [], writeOutcomes := [] }
        { owner := "a", k8sVersion := "1.33", status := .pending,
          errorMessage := "", statusUpdatedAt := 0, podId := "",
          expiresAt := 100, id := "r1", displayName := "",
          workloadType := "" }).1.items "r1" =
      some { owner := "a", k8sVersion := "1.33", status := .pending,
             errorMessage := "", statusUpdatedAt := 5, podId := "",
             expiresAt := 100, id := "r1", displayName := "",
             workloadType := "" }) ∧
    List.Sorted (· ≤ ·) (statusTimeTrace { items := [], writeOutcomes := [] }
      [({ owner := "a", k8sVersion := "1.33", status := .pending,
          errorMessage := "", statusUpdatedAt := 0, podId := "",
          expiresAt := 100, id := "r1", displayName := "",
          workloadType := "" }, 3),
       ({ owner := "a", k8sVersion := "1.33", status := .available,
          errorMessage := "", statusUpdatedAt := 0, podId := "p",
          expiresAt := 100, id := "r1", displayName := "",
          workloadType := "" }, 7)] "r1") := by
  have h := statusUpdatedAt_monotone { items := [], writeOutcomes := [] }
    [({ owner := "a", k8sVersion := "1.33", status := .pending,
        errorMessage := "", statusUpdatedAt := 0, podId := "",
        expiresAt := 100, id := "r1", displayName := "",
        workloadType := "" }, 3),
     ({ owner := "a", k8sVersion := "1.33", status := .available,
        errorMessage := "", statusUpdatedAt := 0, podId := "p",
        expiresAt := 100, id := "r1", displayName := "",
        workloadType := "" }, 7)] "r1" rfl (by decide) rfl
  exact ⟨h.1 5 _ _ rfl, h.2⟩

/-! ## C8 — the per-session keystroke parser -/

theorem head?_trimAsciiSpace_esc (l : List Char) :
    (trimAsciiSpace (escChar :: l)).head? = some escChar := by
  have hesc : asciiSpace escChar = false := by decide
  unfold trimAsciiSpace
  rw [List.dropWhile_cons]
  simp only [hesc, Bool.false_eq_true, if_false]
  rw [List.reverse_cons, List.dropWhile_append]
  by_cases he : (l.reverse.dropWhile asciiSpace).isEmpty
  · simp only [he, if_true]
    rw [List.dropWhile_cons]
    simp [hesc]
  · simp only [he, Bool.false_eq_true, if_false]
    simp

theorem isResizeControlFrame_esc (data : String) (l : List Char)
    (h : data.data = escChar :: l) :
    isResizeControlFrame data = false := by
  unfold isResizeControlFrame
  rw [h, Bool.and_eq_false_iff]
  left
  rw [head?_trimAsciiSpace_esc]
  decide

/-- C8: behavior of `ParseCommandFromWebSocketDataWithSession` on one
session.  (1) the concrete scenario of the claim: frames `"la"`, backspace,
`"s"`, CR flush the command `"ls"`; (2) JSON resize frames contribute
nothing; (3) ESC-prefixed frames contribute nothing; (4) a frame containing
CR or LF flushes the (whitespace-trimmed) session buffer as the command and
clears the buffer; (5) a backspace or DEL frame retracts one byte of the
session buffer and flushes nothing; (6) a frame of printable-or-Tab bytes
appends itself to the session buffer and flushes nothing. -/
theorem keystroke_parser_behavior :
    (feedFrames "s1" ["la", "\x08", "s", "\x0d"] []).1 =
      ["", "", "", "ls"] ∧
    (∀ (data sid : String) (bs : Buffers),
      isResizeControlFrame data = true →
      ParseCommandFromWebSocketDataWithSession data sid bs = ("", bs)) ∧
    (∀ (data sid : String) (bs : Buffers) (l : List Char),
      data.data = escChar :: l →
      ParseCommandFromWebSocketDataWithSession data sid bs = ("", bs)) ∧
    (∀ (data sid : String) (bs : Buffers),
      isResizeControlFrame data = false →
      ¬ data.data.head? = some escChar →
      (data.data.contains (Char.ofNat 13) ||
        data.data.contains (Char.ofNat 10)) = true →
      ParseCommandFromWebSocketDataWithSession data sid bs =
        (String.mk (trimAsciiSpace (lookupBuf bs sid).data),
         storeBuf bs sid "")) ∧
    (∀ (sid : String) (bs : Buffers),
      ParseCommandFromWebSocketDataWithSession "\x08" sid bs =
        ("", if (lookupBuf bs sid).length > 0 then
               storeBuf bs sid (String.mk (lookupBuf bs sid).data.dropLast)
             else bs) ∧
      ParseCommandFromWebSocketDataWithSession "\x7f" sid bs =
        ("", if (lookupBuf bs sid).length > 0 then
               storeBuf bs sid (String.mk (lookupBuf bs sid).data.dropLast)
             else bs)) ∧
    (∀ (data sid : String) (bs : Buffers),
      isResizeControlFrame data = false →
      (∀ c ∈ data.data, keepPrintable c = true) →
      ParseCommandFromWebSocketDataWithSession data sid bs =
        ("", storeBuf bs sid
          (String.mk ((lookupBuf bs sid).data ++ data.data)))) := by
  refine ⟨by decide, ?_, ?_, ?_, ?_, ?_⟩
  · intro data sid bs h
    unfold ParseCommandFromWebSocketDataWithSession
    rw [if_pos h]
  · intro data sid bs l h
    unfold ParseCommandFromWebSocketDataWithSession
    rw [if_neg (by rw [isResizeControlFrame_esc data l h]; decide),
      if_pos (by rw [h]; rfl)]
  · intro data sid bs h1 h2 h3
    unfold ParseCommandFromWebSocketDataWithSession
    rw [if_neg (by rw [h1]; decide), if_neg h2, if_pos h3]
    have hcmd : (if (String.mk (trimAsciiSpace (lookupBuf bs sid).data)).length
          > 0 then String.mk (trimAsciiSpace (lookupBuf bs sid).data)
        else "") = String.mk (trimAsciiSpace (lookupBuf bs sid).data) := by
      by_cases hl : (String.mk (trimAsciiSpace (lookupBuf bs sid).data)).length > 0
      · rw [if_pos hl]
      · rw [if_neg hl]
        have hz : (trimAsciiSpace (lookupBuf bs sid).data).length = 0 := by
          simpa [String.length] using hl
        rw [List.length_eq_zero.mp hz]
    show (if (String.mk (trimAsciiSpace (lookupBuf bs sid).data)).length > 0
        then String.mk (trimAsciiSpace (lookupBuf bs sid).data) else "",
      storeBuf bs sid "") =
      (String.mk (trimAsciiSpace (lookupBuf bs sid).data), storeBuf bs sid "")
    rw [hcmd]
  · intro sid bs
    constructor
    · unfold ParseCommandFromWebSocketDataWithSession
      rw [if_neg (by decide), if_neg (by decide), if_neg (by decide),
        if_pos (by left; rfl)]
      by_cases hl : (lookupBuf bs sid).length > 0
      · rw [if_pos hl, if_pos hl]
      · rw [if_neg hl, if_neg hl]
    · unfold ParseCommandFromWebSocketDataWithSession
      rw [if_neg (by decide), if_neg (by decide), if_neg (by decide),
        if_pos (by right; rfl)]
      by_cases hl : (lookupBuf bs sid).length > 0
      · rw [if_pos hl, if_pos hl]
      · rw [if_neg hl, if_neg hl]
  · intro data sid bs h1 h2
    have hesc : ¬ data.data.head? = some escChar := by
      intro hc
      rcases hd : data.data with _ | ⟨c, rest⟩
      · rw [hd] at hc
        cases hc
      · rw [hd] at hc
        have hcesc : c = escChar := by
          simpa using hc
        have := h2 c (by rw [hd]; exact List.mem_cons_self c rest)
        rw [hcesc] at this
        exact absurd this (by decide)
    have hcr : (data.data.contains (Char.ofNat 13) ||
        data.data.contains (Char.ofNat 10)) = false := by
      rw [Bool.or_eq_false_iff]
      constructor
      · rw [← Bool.not_eq_true, List.contains_eq_any_beq]
        intro hc
        simp only [List.any_eq_true] at hc
        obtain ⟨c, hcmem, hcbeq⟩ := hc
        have := h2 c hcmem
        rw [show c = Char.ofNat 13 from
          (show Char.ofNat 13 = c by simpa using hcbeq).symm] at this
        exact absurd this (by decide)
      · rw [← Bool.not_eq_true, List.contains_eq_any_beq]
        intro hc
        simp only [List.any_eq_true] at hc
        obtain ⟨c, hcmem, hcbeq⟩ := hc
        have := h2 c hcmem
        rw [show c = Char.ofNat 10 from
          (show Char.ofNat 10 = c by simpa using hcbeq).symm] at this
        exact absurd this (by decide)
    have hbs : ¬ (data = "\x08" ∨ data = "\x7f") := by
      rintro (hc | hc)
      · have := h2 (Char.ofNat 8) (by rw [hc]; decide)
        exact absurd this (by decide)
      · have := h2 (Char.ofNat 127) (by rw [hc]; decide)
        exact absurd this (by decide)
    unfold ParseCommandFromWebSocketDataWithSession
    rw [if_neg (by rw [h1]; decide), if_neg hesc, if_neg (by rw [hcr]; decide),
      if_neg hbs, List.filter_eq_self.mpr h2]

/-- Witness for `keystroke_parser_behavior`: a resize frame is skipped, a CR
frame flushes the buffered `ls`, and printable bytes accumulate. -/
theorem keystroke_parser_behavior_witness :
    ParseCommandFromWebSocketDataWithSession
      "\x7b\x22resize\x22:true,\x22cols\x22:100,\x22rows\x22:30\x7d" "s1"
      [("s1", "ab")] = ("", [("s1", "ab")]) ∧
    ParseCommandFromWebSocketDataWithSession "\x0d" "s1" [("s1", "ls")] =
      ("ls", [("s1", "")]) ∧
    ParseCommandFromWebSocketDataWithSession "cd" "s1" [("s1", "ab")] =
      ("", [("s1", "abcd")]) := by
  refine ⟨keystroke_parser_behavior.2.1 _ "s1" [("s1", "ab")] (by decide),
    ?_, ?_⟩
  · rw [keystroke_parser_behavior.2.2.2.1 "\x0d" "s1" [("s1", "ls")]
      (by decide) (by decide) (by decide)]
    decide
  · rw [keystroke_parser_behavior.2.2.2.2.2 "cd" "s1" [("s1", "ab")]
      (by decide) (by decide)]
    decide

/-! ## C10 — the owner slug is canonical and idempotent -/

theorem head?_dropWhile_not {α : Type} (p : α → Bool) :
    ∀ (l : List α) (x : α), (l.dropWhile p).head? = some x → p x = false := by
  intro l
  induction l with
  | nil =>
    intro x h
    cases h
  | cons a t ih =>
    intro x h
    rw [List.dropWhile_cons] at h
    by_cases hp : p a = true
    · rw [if_pos hp] at h
      exact ih x h
    · rw [if_neg hp] at h
      have hax : a = x := by simpa using h
      rw [← hax]
      simpa using hp

theorem mem_of_mem_dropWhile {α : Type} (p : α → Bool) :
    ∀ (l : List α) (x : α), x ∈ l.dropWhile p → x ∈ l := by
  intro l
  induction l with
  | nil =>
    intro x h
    simpa using h
  | cons a t ih =>
    intro x h
    rw [List.dropWhile_cons] at h
    by_cases hp : p a = true
    · rw [if_pos hp] at h
      exact List.mem_cons_of_mem a (ih x h)
    · rw [if_neg hp] at h
      exact h

theorem mem_of_mem_trimHyphen (l : List Char) (x : Char)
    (h : x ∈ trimHyphen l) : x ∈ l := by
  unfold trimHyphen at h
  have h1 := List.mem_reverse.mp h
  have h2 := mem_of_mem_dropWhile _ _ _ h1
  have h3 := List.mem_reverse.mp h2
  exact mem_of_mem_dropWhile _ _ _ h3

theorem mem_collapseAux (l : List Char) :
    ∀ (b : Bool), ∀ c ∈ collapseAux b l, isAllowedChar c = true := by
  induction l with
  | nil =>
    intro b c hc
    simp [collapseAux] at hc
  | cons a t ih =>
    intro b c hc
    by_cases ha : isAllowedChar a = true
    · rw [collapseAux, if_pos ha] at hc
      rcases List.mem_cons.mp hc with h | h
      · rw [h]
        exact ha
      · exact ih false c h
    · rw [collapseAux, if_neg ha] at hc
      cases b with
      | true =>
        simp only [if_true] at hc
        exact ih true c hc
      | false =>
        simp only [Bool.false_eq_true, if_false] at hc
        rcases List.mem_cons.mp hc with h | h
        · rw [h]
          decide
        · exact ih true c h

theorem head?_revDropRev (p : Char → Bool) (a : Char) (t : List Char)
    (hpa : p a = false) :
    (((a :: t).reverse.dropWhile p).reverse).head? = some a := by
  rw [List.reverse_cons, List.dropWhile_append]
  by_cases he : (t.reverse.dropWhile p).isEmpty
  · rw [if_pos he, List.dropWhile_cons]
    simp [hpa]
  · rw [if_neg he]
    simp

theorem trimHyphen_head (l : List Char) (x : Char)
    (h : (trimHyphen l).head? = some x) : (x == '-') = false := by
  unfold trimHyphen at h
  rcases hc : l.dropWhile (fun c => c == '-') with _ | ⟨a, t⟩
  · rw [hc] at h
    cases h
  · have hpa : (a == '-') = false :=
      head?_dropWhile_not _ l a (by rw [hc]; rfl)
    rw [hc, head?_revDropRev _ a t hpa] at h
    have hax : a = x := by simpa using h
    rw [← hax]
    exact hpa

theorem trimHyphen_getLast (l : List Char) (x : Char)
    (h : (trimHyphen l).getLast? = some x) : (x == '-') = false := by
  unfold trimHyphen at h
  rw [List.getLast?_reverse] at h
  exact head?_dropWhile_not (fun c => c == '-') _ x h

theorem toLower_fix (c : Char) (h : isAllowedChar c = true) :
    c.toLower = c := by
  simp only [isAllowedChar, Bool.or_eq_true, Bool.and_eq_true,
    decide_eq_true_eq] at h
  unfold Char.toLower
  rw [if_neg]
  simp only [Bool.and_eq_true, decide_eq_true_eq, not_and]
  omega

theorem map_toLower_fix (l : List Char)
    (h : ∀ c ∈ l, isAllowedChar c = true) : l.map Char.toLower = l := by
  induction l with
  | nil => rfl
  | cons a t ih =>
    simp only [List.map_cons]
    rw [toLower_fix a (h a (List.mem_cons_self a t)),
      ih (fun c hc => h c (List.mem_cons_of_mem a hc))]

theorem collapseAux_fix (l : List Char)
    (h : ∀ c ∈ l, isAllowedChar c = true) :
    ∀ b, collapseAux b l = l := by
  induction l with
  | nil =>
    intro b
    rfl
  | cons a t ih =>
    intro b
    rw [collapseAux, if_pos (h a (List.mem_cons_self a t)),
      ih (fun c hc => h c (List.mem_cons_of_mem a hc)) false]

theorem dropWhile_eq_self_of_head {α : Type} (p : α → Bool) (l : List α)
    (h : ∀ x, l.head? = some x → p x = false) : l.dropWhile p = l := by
  cases l with
  | nil => rfl
  | cons a t =>
    rw [List.dropWhile_cons, if_neg]
    simp [h a rfl]

theorem trimHyphen_eq_self (l : List Char)
    (hh : ∀ x, l.head? = some x → (x == '-') = false)
    (hl : ∀ x, l.getLast? = some x → (x == '-') = false) :
    trimHyphen l = l := by
  unfold trimHyphen
  rw [dropWhile_eq_self_of_head _ l hh,
    dropWhile_eq_self_of_head _ l.reverse
      (fun x hx => hl x (by rwa [List.head?_reverse] at hx)),
    List.reverse_reverse]

/-- C10: the owner slug is canonical and idempotent: for every input,
`sanitizeName (sanitizeName s) = sanitizeName s`; the result is non-empty,
consists only of characters in `[a-z0-9-]`, and carries no leading or
trailing hyphen; when sanitizing erases everything, the fixed string
`invalid-name` is returned. -/
theorem sanitizeName_canonical (s : List Char) :
    sanitizeName (sanitizeName s) = sanitizeName s ∧
    ¬ sanitizeName s = [] ∧
    (∀ c ∈ sanitizeName s, isAllowedChar c = true) ∧
    (∀ x, (sanitizeName s).head? = some x → ¬ x = '-') ∧
    (∀ x, (sanitizeName s).getLast? = some x → ¬ x = '-') ∧
    (trimHyphen (collapseDisallowed (s.map Char.toLower)) = [] →
      sanitizeName s = "invalid-name".data) := by
  by_cases ht : trimHyphen (collapseDisallowed (s.map Char.toLower)) = []
  · have hsan : sanitizeName s = "invalid-name".data := by
      simp only [sanitizeName, ht, if_pos]
    refine ⟨?_, ?_, ?_, ?_, ?_, fun _ => hsan⟩
    · rw [hsan]
      decide
    · rw [hsan]
      decide
    · rw [hsan]
      decide
    · rw [hsan]
      intro x hx
      have hi : ("invalid-name".data).head? = some 'i' := by decide
      rw [hi] at hx
      have : x = 'i' := by simpa using hx.symm
      rw [this]
      decide
    · rw [hsan]
      intro x hx
      have he : ("invalid-name".data).getLast? = some 'e' := by decide
      rw [he] at hx
      have : x = 'e' := by simpa using hx.symm
      rw [this]
      decide
  · have hsan : sanitizeName s =
        trimHyphen (collapseDisallowed (s.map Char.toLower)) := by
      simp only [sanitizeName, ht, if_neg, if_false]
    set t := trimHyphen (collapseDisallowed (s.map Char.toLower)) with hdef
    have hchars : ∀ c ∈ t, isAllowedChar c = true := fun c hc =>
      mem_collapseAux _ false c (mem_of_mem_trimHyphen _ c hc)
    have hhead : ∀ x, t.head? = some x → (x == '-') = false := fun x hx =>
      trimHyphen_head _ x hx
    have hlast : ∀ x, t.getLast? = some x → (x == '-') = false := fun x hx =>
      trimHyphen_getLast _ x hx
    have h1 : t.map Char.toLower = t := map_toLower_fix t hchars
    have h2 : collapseDisallowed t = t := collapseAux_fix t hchars false
    have h3 : trimHyphen t = t := trimHyphen_eq_self t hhead hlast
    refine ⟨?_, by rw [hsan]; exact ht, by rw [hsan]; exact hchars,
      ?_, ?_, fun hempty => absurd hempty ht⟩
    · rw [hsan]
      simp only [sanitizeName, h1, h2, h3]
      rw [if_neg ht]
    · rw [hsan]
      intro x hx
      simpa using hhead x hx
    · rw [hsan]
      intro x hx
      simpa using hlast x hx

/-- Witness for `sanitizeName_canonical` at the input `--Alice@@`, whose
slug is `alice`: idempotence holds, and the class and no-leading-hyphen
conjuncts are discharged at the concrete character `a`. -/
theorem sanitizeName_canonical_witness :
    sanitizeName (sanitizeName "--Alice@@".data) =
      sanitizeName "--Alice@@".data ∧
    isAllowedChar 'a' = true ∧
    ¬ 'a' = '-' := by
  have h := sanitizeName_canonical "--Alice@@".data
  refine ⟨h.1, ?_, ?_⟩
  · exact h.2.2.1 'a' (by decide)
  · exact h.2.2.2.1 'a' (by decide)

end Playground
